import Mathlib

/-!
Shallow embedding of the Memento example of this repository
(`src/src/Memento：备忘录模式/Conceptual/index.ts`).

The TypeScript file declares three classes:

* `Originator` — holds one private `state : string`; `doSomething()`
  replaces the state with a freshly generated random string;
  `save()` returns `new ConcreteMemento(this.state)`;
  `restore(memento)` executes `this.state = memento.getState()` and then
  logs the new state.
* `ConcreteMemento` — stores `state` and a creation-`date` string, both
  assigned exactly once in the constructor and never reassigned;
  `getState`, `getDate`, `getName` only read them.
* `Caretaker` — holds `mementos : Memento[]` and a reference to the one
  `Originator` it was constructed with; `backup()` pushes
  `originator.save()`; `undo()` returns early if the array is empty,
  otherwise pops the last element, logs its name and calls
  `originator.restore` on it; `showHistory()` logs every memento name in
  array order.  All three methods have return type `void`.

Modelling choices, each forced by a source construct:

* JavaScript strings are immutable values, and `ConcreteMemento` never
  reassigns its fields, so mementos are plain Lean structure values.
* `new Date().toISOString()...` (current time) and
  `generateRandomString(30)` (randomness) are environment inputs: they
  enter the model as explicit `String` arguments (`date`, `rnd`).
  Quantifying over every such string covers every run of the program.
* `console.log` output is modelled by a `LogLine` inductive so that the
  exact line printed (and its payload) is part of the semantics.
* The `Caretaker` aliases the single `Originator` it is bound to, so a
  `World` bundles the shared originator with the caretaker array.
* A method with return type `void` returns `undefined`; where a claim is
  about the value returned to the caller (`undo`), the embedding makes
  that value explicit as an `Option ConcreteMemento`, `none` standing
  for `undefined`.
* Calling `memento.getState()` on a `null`/`undefined` memento throws at
  run time before the assignment `this.state = ...` executes, so the
  originator state is untouched; `Originator.restore` therefore takes an
  `Option` and returns `Except`, the error constructor named
  `invalidArgument` after the error taxonomy used for this condition.
-/

namespace MementoTS

/-- Payload-carrying model of each distinct `console.log` line the three
classes can print (constructor log lines of the demo driver omitted). -/
inductive LogLine where
  | savingState : LogLine
  | restoringTo (name : String) : LogLine
  | stateChangedTo (s : String) : LogLine
  | historyHeader : LogLine
  | historyEntry (name : String) : LogLine
  | doingSomething : LogLine
  | stateIsNow (s : String) : LogLine
  deriving DecidableEq

/-- Class `ConcreteMemento`: both fields are assigned once in the
constructor (`this.state = state; this.date = new Date()...`) and never
written again. -/
structure ConcreteMemento where
  state : String
  date : String
  deriving DecidableEq

/-- Method `getState()`: `return this.state`. -/
def ConcreteMemento.getState (m : ConcreteMemento) : String := m.state

/-- Method `getDate()`: `return this.date`. -/
def ConcreteMemento.getDate (m : ConcreteMemento) : String := m.date

/-- Method `getName()`: the template literal
`` `${this.date} / (${this.state.substr(0, 9)}...)` ``;
`substr(0, 9)` takes the first 9 characters, i.e. `String.take 9`. -/
def ConcreteMemento.getName (m : ConcreteMemento) : String :=
  m.date ++ " / (" ++ m.state.take 9 ++ "...)"

/-- Class `Originator`: the single private field `state : string`. -/
structure Originator where
  state : String
  deriving DecidableEq

/-- Method `doSomething()`: logs, then `this.state =
this.generateRandomString(30)`, then logs the new state.  The random
result enters as the argument `rnd`. -/
def Originator.doSomething (o : Originator) (rnd : String) :
    Originator × List LogLine :=
  (⟨rnd⟩, [LogLine.doingSomething, LogLine.stateIsNow rnd])

/-- Method `save()`: `return new ConcreteMemento(this.state)`; the
memento constructor stamps the current date, which enters as `date`. -/
def Originator.save (o : Originator) (date : String) : ConcreteMemento :=
  ⟨o.state, date⟩

/-- Error raised by `restore` when the memento is null/absent (at run
time dereferencing it throws before any assignment happens). -/
inductive RestoreFault where
  | invalidArgument : RestoreFault
  deriving DecidableEq

/-- Body of `restore(memento)` for a present memento:
`this.state = memento.getState()` followed by the log line. -/
def Originator.restoreMem (o : Originator) (m : ConcreteMemento) :
    Originator × LogLine :=
  (⟨m.getState⟩, LogLine.stateChangedTo m.getState)

/-- Method `restore(memento)` including the null/absent-argument
behaviour: with a null memento, `memento.getState()` throws before the
assignment runs, so no new originator state is produced. -/
def Originator.restore (o : Originator) (om : Option ConcreteMemento) :
    Except RestoreFault (Originator × LogLine) :=
  match om with
  | none => Except.error RestoreFault.invalidArgument
  | some m => Except.ok (Originator.restoreMem o m)

/-- Caller view of `restore`: the originator after the call, paired with
the error surfaced (if any).  On the error path the originator is the
unchanged receiver. -/
def Originator.restoreOutcome (o : Originator) (om : Option ConcreteMemento) :
    Originator × Option RestoreFault :=
  match Originator.restore o om with
  | Except.error e => (o, some e)
  | Except.ok (o2, _) => (o2, none)

/-- Combined state of the one `Originator` and the `Caretaker` bound to
it: the caretaker field `originator` aliases the driver originator, so
the pair is a single record; `mementos` is the caretaker array. -/
structure World where
  originator : Originator
  mementos : List ConcreteMemento
  deriving DecidableEq

/-- Method `Caretaker.backup()`: logs, then
`this.mementos.push(this.originator.save())` (push appends at the end of
the array). -/
def Caretaker.backup (w : World) (date : String) : World × List LogLine :=
  (⟨w.originator, w.mementos ++ [Originator.save w.originator date]⟩,
   [LogLine.savingState])

/-- Method `Caretaker.undo()`: `if (!this.mementos.length) return;`
then `const memento = this.mementos.pop()` (removes and yields the last
element), log the name, `this.originator.restore(memento)`.  The method
has return type `void`, so the value handed back to the caller —
the third component — is `undefined` (`none`) on both paths. -/
def Caretaker.undo (w : World) : World × List LogLine × Option ConcreteMemento :=
  match w.mementos.getLast? with
  | none => (w, [], none)
  | some memento =>
    let r := Originator.restoreMem w.originator memento
    (⟨r.1, w.mementos.dropLast⟩,
     [LogLine.restoringTo memento.getName, r.2], none)

/-- Method `Caretaker.showHistory()`: logs a header line, then one line
with `memento.getName()` for each element in array order.  It only reads
`this.mementos`, so the world is returned unchanged. -/
def Caretaker.showHistory (w : World) : World × List LogLine :=
  (w, LogLine.historyHeader ::
    w.mementos.map (fun m => LogLine.historyEntry m.getName))

/-- Driver operations: the client may call, in any interleaving,
`originator.doSomething()`, `caretaker.backup()`, `caretaker.undo()` and
`caretaker.showHistory()`.  The environment inputs (random string, date)
ride on the constructors. -/
inductive Op where
  | mutate (rnd : String) : Op
  | capture (date : String) : Op
  | revert : Op
  | listHistory : Op
  deriving DecidableEq

/-- Effect of one driver call on the world (log lines and return values
projected away). -/
def step (w : World) : Op → World
  | Op.mutate rnd => ⟨(Originator.doSomething w.originator rnd).1, w.mementos⟩
  | Op.capture date => (Caretaker.backup w date).1
  | Op.revert => (Caretaker.undo w).1
  | Op.listHistory => (Caretaker.showHistory w).1

/-- Execution of a call sequence. -/
def run (w : World) (ops : List Op) : World :=
  ops.foldl step w

/-- Call sequence consisting of one `backup` per block, each followed by
the block of `doSomething` calls interleaved before the next `backup`. -/
def captureBlocks : List (String × List String) → List Op
  | [] => []
  | (date, muts) :: rest =>
      Op.capture date :: (muts.map Op.mutate ++ captureBlocks rest)

/-- Sample memento used to instantiate hypotheses at concrete inputs. -/
def mS1 : ConcreteMemento := ⟨"A", "D1"⟩

/-- Second sample memento. -/
def mS2 : ConcreteMemento := ⟨"B", "D2"⟩

/-- Sample world whose history holds two snapshots. -/
def wS : World := ⟨⟨"B"⟩, [mS1, mS2]⟩

/-- Sample world with an empty history. -/
def wEmpty : World := ⟨⟨"A"⟩, []⟩

/-- Running a cons peels one step. -/
lemma run_cons (w : World) (x : Op) (xs : List Op) :
    run w (x :: xs) = run (step w x) xs := rfl

/-- Running an appended sequence composes. -/
lemma run_append (w : World) (l1 l2 : List Op) :
    run w (l1 ++ l2) = run (run w l1) l2 :=
  List.foldl_append step w l1 l2

/-- A block of `doSomething` calls leaves the caretaker array alone. -/
lemma run_mutates (ms : List String) (w : World) :
    (run w (ms.map Op.mutate)).mementos = w.mementos := by
  induction ms generalizing w with
  | nil => rfl
  | cons r rest ih => exact (ih (step w (Op.mutate r))).trans rfl

/-- Computation of `undo` on a world whose history ends in `m`: the last
element is popped, its name logged, the originator state overwritten
with the stored value, and `undefined` returned. -/
lemma undo_concat (w : World) (l : List ConcreteMemento) (m : ConcreteMemento)
    (h : w.mementos = l ++ [m]) :
    Caretaker.undo w =
      (⟨⟨m.getState⟩, l⟩,
       [LogLine.restoringTo m.getName, LogLine.stateChangedTo m.getState],
       none) := by
  obtain ⟨o, ms⟩ := w
  change ms = l ++ [m] at h
  subst h
  simp [Caretaker.undo, Originator.restoreMem, List.getLast?_concat,
    List.dropLast_concat]

/-- C1: round-trip undo law.  For every starting world and every list of
blocks — each block one `backup` call followed by an arbitrary run of
`doSomething` calls before the next `backup` — executing the `backup`
calls and then as many `undo` calls returns the whole world (in
particular the originator state) to its value immediately before the
first `backup`.  The statement is slightly stronger than the claim: it
also allows mutations after the last capture and includes the zero-block
case, and it restores the history as well as the state. -/
theorem C1_round_trip_undo (w : MementoTS.World)
    (blocks : List (String × List String)) :
    MementoTS.run w (MementoTS.captureBlocks blocks ++
      List.replicate blocks.length MementoTS.Op.revert) = w := by
  induction blocks generalizing w with
  | nil => rfl
  | cons b rest ih =>
    obtain ⟨date, muts⟩ := b
    obtain ⟨⟨s⟩, ms⟩ := w
    have hlist :
        MementoTS.captureBlocks ((date, muts) :: rest) ++
          List.replicate ((date, muts) :: rest).length MementoTS.Op.revert =
        MementoTS.Op.capture date :: (muts.map MementoTS.Op.mutate ++
          ((MementoTS.captureBlocks rest ++
            List.replicate rest.length MementoTS.Op.revert) ++
           [MementoTS.Op.revert])) := by
      simp [MementoTS.captureBlocks, List.replicate_succ']
    rw [hlist, MementoTS.run_cons, MementoTS.run_append,
      MementoTS.run_append, ih]
    have hm :
        (MementoTS.run
          (MementoTS.step ⟨⟨s⟩, ms⟩ (MementoTS.Op.capture date))
          (muts.map MementoTS.Op.mutate)).mementos =
        ms ++ [⟨s, date⟩] := by
      rw [MementoTS.run_mutates]
      rfl
    show (MementoTS.Caretaker.undo _).1 = _
    rw [MementoTS.undo_concat _ ms ⟨s, date⟩ hm]
    rfl

/-- C2: strict LIFO stack discipline.  In any world (hence in every
reachable one, since worlds evolve only by `step`), a `backup` appends
the new snapshot at the end of the entries array — so the array lists
snapshots in capture order — and an `undo` on a non-empty history
removes exactly the last (most recently captured, not yet consumed)
entry and overwrites the originator state with that entry's stored
state. -/
theorem C2_lifo_stack (w : MementoTS.World) (date : String)
    (l : List MementoTS.ConcreteMemento) (m : MementoTS.ConcreteMemento)
    (h : w.mementos = l ++ [m]) :
    (MementoTS.step w (MementoTS.Op.capture date)).mementos =
        w.mementos ++ [MementoTS.Originator.save w.originator date]
    ∧ MementoTS.step w MementoTS.Op.revert = ⟨⟨m.getState⟩, l⟩ := by
  constructor
  · rfl
  · show (MementoTS.Caretaker.undo w).1 = _
    rw [MementoTS.undo_concat w l m h]

/-- Witness for C2 at a concrete two-entry history. -/
theorem C2_lifo_stack_witness :
    MementoTS.wS.mementos = [MementoTS.mS1] ++ [MementoTS.mS2]
    ∧ ((MementoTS.step MementoTS.wS
          (MementoTS.Op.capture ("D3"))).mementos =
        MementoTS.wS.mementos ++
          [MementoTS.Originator.save MementoTS.wS.originator ("D3")]
       ∧ MementoTS.step MementoTS.wS MementoTS.Op.revert =
          ⟨⟨MementoTS.mS2.getState⟩, [MementoTS.mS1]⟩) :=
  ⟨rfl, C2_lifo_stack MementoTS.wS ("D3") [MementoTS.mS1] MementoTS.mS2 rfl⟩

/-- C3: `restore` with an absent snapshot fails with `invalidArgument`
and leaves the originator untouched; with a present snapshot it fully
overwrites the state with `m.getState()` and no error is surfaced. -/
theorem C3_restore_atomicity (o : MementoTS.Originator)
    (m : MementoTS.ConcreteMemento) :
    MementoTS.Originator.restoreOutcome o none =
        (o, some MementoTS.RestoreFault.invalidArgument)
    ∧ MementoTS.Originator.restoreOutcome o (some m) = (⟨m.getState⟩, none) :=
  ⟨rfl, rfl⟩

/-- C4: `undo` on an empty history returns before doing anything: the
world is unchanged (state untouched, entries still empty), nothing is
logged, no error channel even exists, and `undefined` is returned. -/
theorem C4_empty_revert_noop (w : MementoTS.World) (h : w.mementos = []) :
    MementoTS.Caretaker.undo w = (w, [], none) := by
  obtain ⟨o, ms⟩ := w
  change ms = [] at h
  subst h
  rfl

/-- Witness for C4 at a freshly constructed caretaker. -/
theorem C4_empty_revert_noop_witness :
    MementoTS.wEmpty.mementos = []
    ∧ MementoTS.Caretaker.undo MementoTS.wEmpty = (MementoTS.wEmpty, [], none) :=
  ⟨rfl, C4_empty_revert_noop MementoTS.wEmpty rfl⟩

/-- C5: frame property of `backup`: it appends exactly one snapshot at
the end (so the length grows by one and every previously stored entry is
unchanged), leaves the originator alone, and the appended snapshot
stores exactly the originator state at the moment of the call. -/
theorem C5_capture_frame (w : MementoTS.World) (date : String) :
    MementoTS.Caretaker.backup w date =
      (⟨w.originator, w.mementos ++ [⟨w.originator.state, date⟩]⟩,
       [MementoTS.LogLine.savingState])
    ∧ (MementoTS.Caretaker.backup w date).1.mementos.length =
        w.mementos.length + 1
    ∧ (MementoTS.Originator.save w.originator date).getState =
        w.originator.state := by
  refine ⟨rfl, ?_, rfl⟩
  simp [MementoTS.Caretaker.backup]

/-- C6: `showHistory` prints the header and then exactly the names of
the current entries in array order (oldest first), returns the world
unchanged, and a repeated call with no operation in between prints the
same lines. -/
theorem C6_listHistory_labels (w : MementoTS.World) :
    MementoTS.Caretaker.showHistory w =
      (w, MementoTS.LogLine.historyHeader ::
        w.mementos.map (fun m => MementoTS.LogLine.historyEntry m.getName))
    ∧ (MementoTS.Caretaker.showHistory
        (MementoTS.Caretaker.showHistory w).1).2 =
      (MementoTS.Caretaker.showHistory w).2 :=
  ⟨rfl, rfl⟩

/-- C7 counterexample: on a history whose last (removed) entry is `mS2`,
`undo` hands `undefined` back to the caller — the method has return type
`void` — so it does not return the removed snapshot. -/
theorem C7_counterexample :
    MementoTS.wS.mementos.getLast? = some MementoTS.mS2
    ∧ (MementoTS.Caretaker.undo MementoTS.wS).2.2 ≠ some MementoTS.mS2 :=
  ⟨rfl, by decide⟩

/-- C7 as amended: `undo` on a non-empty history removes the last entry
from the array, calls the bound originator's `restore` with it (logging
the removed snapshot's name for display), but returns nothing to the
caller. -/
theorem C7_revert_behaviour (w : MementoTS.World)
    (l : List MementoTS.ConcreteMemento) (m : MementoTS.ConcreteMemento)
    (h : w.mementos = l ++ [m]) :
    MementoTS.Caretaker.undo w =
      (⟨⟨m.getState⟩, l⟩,
       [MementoTS.LogLine.restoringTo m.getName,
        MementoTS.LogLine.stateChangedTo m.getState],
       none) :=
  MementoTS.undo_concat w l m h

/-- Witness for the amended C7 at a concrete two-entry history. -/
theorem C7_revert_behaviour_witness :
    MementoTS.wS.mementos = [MementoTS.mS1] ++ [MementoTS.mS2]
    ∧ MementoTS.Caretaker.undo MementoTS.wS =
      (⟨⟨MementoTS.mS2.getState⟩, [MementoTS.mS1]⟩,
       [MementoTS.LogLine.restoringTo MementoTS.mS2.getName,
        MementoTS.LogLine.stateChangedTo MementoTS.mS2.getState],
       none) :=
  ⟨rfl, C7_revert_behaviour MementoTS.wS [MementoTS.mS1] MementoTS.mS2 rfl⟩

/-- C8: snapshot immutability.  Mementos are immutable values — the
class never reassigns its fields and the stored JavaScript string is
itself immutable — so the embedding states the observable consequences:
no operation rewrites a stored entry (whenever index `i` is live before
and after a step, the entry at `i` is the very same value), `save`
copies the current state into the snapshot, and a later `doSomething`
replaces only the live state, leaving any such snapshot expression
denoting the old value. -/
theorem C8_snapshot_immutability (w : MementoTS.World) (op : MementoTS.Op)
    (i : Nat) (dm : MementoTS.ConcreteMemento) (o : MementoTS.Originator)
    (d r : String) (h1 : i < w.mementos.length)
    (h2 : i < (MementoTS.step w op).mementos.length) :
    (MementoTS.step w op).mementos.getD i dm = w.mementos.getD i dm
    ∧ (MementoTS.Originator.save o d).getState = o.state
    ∧ ((MementoTS.Originator.doSomething o r).1).state = r := by
  refine ⟨?_, rfl, rfl⟩
  cases op with
  | mutate rnd => rfl
  | listHistory => rfl
  | capture date =>
    show (w.mementos ++
      [MementoTS.Originator.save w.originator date]).getD i dm =
      w.mementos.getD i dm
    rw [List.getD_eq_getElem?_getD, List.getD_eq_getElem?_getD,
      List.getElem?_append]
    simp [h1]
  | revert =>
    cases hms : w.mementos.getLast? with
    | none =>
      simp [MementoTS.step, MementoTS.Caretaker.undo, hms]
    | some m =>
      have hdrop : (MementoTS.step w MementoTS.Op.revert).mementos =
          w.mementos.dropLast := by
        simp [MementoTS.step, MementoTS.Caretaker.undo, hms]
      rw [hdrop] at h2 ⊢
      have hlt : i < w.mementos.length - 1 := by
        rw [List.dropLast_eq_take, List.length_take] at h2
        omega
      rw [List.dropLast_eq_take, List.getD_eq_getElem?_getD,
        List.getD_eq_getElem?_getD, List.getElem?_take]
      simp [hlt]

/-- Witness for C8: a revert step on the two-entry sample world keeps
entry 0 intact. -/
theorem C8_snapshot_immutability_witness :
    (0 < MementoTS.wS.mementos.length
     ∧ 0 < (MementoTS.step MementoTS.wS MementoTS.Op.revert).mementos.length)
    ∧ ((MementoTS.step MementoTS.wS
          MementoTS.Op.revert).mementos.getD 0 MementoTS.mS1 =
        MementoTS.wS.mementos.getD 0 MementoTS.mS1
       ∧ (MementoTS.Originator.save ⟨"A"⟩ ("D")).getState =
          MementoTS.Originator.state ⟨"A"⟩
       ∧ ((MementoTS.Originator.doSomething ⟨"A"⟩ ("R")).1).state = "R") :=
  ⟨⟨by decide, by decide⟩,
   C8_snapshot_immutability MementoTS.wS MementoTS.Op.revert 0 MementoTS.mS1
     ⟨"A"⟩ ("D") ("R") (by decide) (by decide)⟩

/-- C9: restore-then-capture round trip: after `restore` with a present
memento `m` (which succeeds, overwriting the state with `m.getState()`),
an immediately following `save` yields a snapshot whose `getState()`
equals `m.getState()`. -/
theorem C9_restore_then_capture (o : MementoTS.Originator)
    (m : MementoTS.ConcreteMemento) (d : String) :
    MementoTS.Originator.restore o (some m) =
      Except.ok (⟨m.getState⟩, MementoTS.LogLine.stateChangedTo m.getState)
    ∧ (((MementoTS.Originator.restoreMem o m).1).save d).getState =
        m.getState :=
  ⟨rfl, rfl⟩

/-- C10: label format: `getName()` is the date, then a space-slash-space
and an opening parenthesis, then the first nine characters of the stored
state, then an ellipsis and the closing parenthesis; when the state is
shorter than nine characters the whole state appears; and the three
accessors are pure reads of the two fields. -/
theorem C10_getName_format (s d : String) :
    (MementoTS.ConcreteMemento.mk s d).getName =
      d ++ " / (" ++ s.take 9 ++ "...)"
    ∧ (s.length < 9 →
        (MementoTS.ConcreteMemento.mk s d).getName = d ++ " / (" ++ s ++ "...)")
    ∧ (MementoTS.ConcreteMemento.mk s d).getState = s
    ∧ (MementoTS.ConcreteMemento.mk s d).getDate = d := by
  refine ⟨rfl, ?_, rfl, rfl⟩
  intro h
  have hs : s.take 9 = s := by
    rw [String.take_eq, List.take_of_length_le (Nat.le_of_lt h)]
  show d ++ " / (" ++ s.take 9 ++ "...)" = d ++ " / (" ++ s ++ "...)"
  rw [hs]

/-- Witness for C10 with a five-character state. -/
theorem C10_getName_format_witness :
    (("Hello") : String).length < 9
    ∧ (MementoTS.ConcreteMemento.mk ("Hello") ("Dt")).getName =
        ("Dt") ++ " / (" ++ ("Hello") ++ "...)" :=
  ⟨by decide, (C10_getName_format ("Hello") ("Dt")).2.1 (by decide)⟩

end MementoTS
